import Mathlib

set_option maxRecDepth 20000

/-!
Verification of the Cloudflare Worker in `src/worker/src/index.ts`
(ebook-prompt-suite).  Strings are modelled as Lean `String`
(sequences of Unicode code points); all operations on them are defined
through the underlying `List Char`.  JavaScript numbers that can occur in
a parsed JSON body are modelled as `ℚ` (JSON cannot denote NaN or
infinities).  Fallible JavaScript evaluation (property access on `null`,
calling `.trim` on a non-string) is modelled with `Except Unit`.
-/

namespace Worker

/-- Code points treated as whitespace by the JavaScript `trim` method
(ECMAScript WhiteSpace and LineTerminator). -/
def jsWS (c : Char) : Bool :=
  c.toNat ∈ [9, 10, 11, 12, 13, 32, 160, 5760, 8192, 8193, 8194, 8195, 8196,
    8197, 8198, 8199, 8200, 8201, 8202, 8232, 8233, 8239, 8287, 12288, 65279]

/-- Drop JS whitespace from the front of a character list. -/
def trimStartL (l : List Char) : List Char := l.dropWhile jsWS

/-- Drop JS whitespace from the back of a character list. -/
def trimEndL (l : List Char) : List Char := ((l.reverse).dropWhile jsWS).reverse

/-- Both-ends trim on character lists. -/
def trimL (l : List Char) : List Char := trimEndL (trimStartL l)

/-- Model of JavaScript `String.prototype.trim`. -/
def jsTrim (s : String) : String := ⟨trimL s.data⟩

/-- `MAX_PROMPT_CHARS` (src/worker/src/index.ts line 14). -/
def MAX_PROMPT_CHARS : Nat := 2048

/-- `trimToMaxPrompt` (lines 21-25): trim, and if still over the limit keep
the final `maxChars` characters (`t.slice(t.length - maxChars)`). -/
def trimToMaxPrompt (s : String) (maxChars : Nat := MAX_PROMPT_CHARS) : String :=
  let t := jsTrim s
  if t.length ≤ maxChars then t else ⟨t.data.drop (t.length - maxChars)⟩

/-- The `antiText` clause of `buildStyledPrompt` (lines 93-97). -/
def antiText : String :=
  "ABSOLUTELY NO TEXT: no letters, no words, no numbers, no symbols, no signage, no labels, no captions, no book covers with titles, no misspellings, no gibberish. If any sign, poster, menu, label, packaging, screen, or book spine appears, it must be BLANK and UNREADABLE. No logos, no watermark, no signature."

/-- The `avoidTextProps` clause (lines 100-102). -/
def avoidTextProps : String :=
  "Avoid text-bearing elements: posters, banners, street signs, storefront signs, menus, UI screens, labels, packaging, newspapers, magazines, chalkboards, whiteboards, license plates, book spines with titles. Prefer plain surfaces and simple shapes."

/-- The `cropSafe` clause (lines 105-106). -/
def cropSafe : String :=
  "Keep key subjects centered with generous margins; avoid important details near edges (crop-safe 16:9)."

/-- The `baseSafety` clause (lines 108-109). -/
def baseSafety : String :=
  "Family-friendly. Natural proportions. No gore. No violence. No weapons. No horror imagery."

/-- The `storybook` style clause (lines 111-112). -/
def storybook : String :=
  "Storybook illustration, warm cinematic lighting, clean composition, soft depth of field, high detail."

/-- The `animated3d` style clause (lines 114-116). -/
def animated3d : String :=
  "High-quality 3D animated family film look, soft global illumination, warm rim light, detailed materials, subtle subsurface scattering, clean shapes, cinematic depth of field, sharp focus on subject, ultra clean render."

/-- The `strongNoTextNegative` string of the sdxl branch (lines 257-261). -/
def strongNoTextNegative : String :=
  "text, letters, words, typography, caption, subtitle, title, logo, watermark, signature, signage, street sign, label, menu, poster, banner, book cover text, misspelling, gibberish, license plate, UI, screen text, packaging text, low quality, blurry, grain, noise, deformed, malformed hands, extra fingers"

/-- A JavaScript value as it can appear after `JSON.parse`, extended with
`jsUndefined` for missing object properties.  Numbers are finite rationals (JSON
has no NaN or infinity literals). -/
inductive JSVal where
  | jsUndefined : JSVal
  | jsNull : JSVal
  | bool (b : Bool) : JSVal
  | num (q : ℚ) : JSVal
  | str (s : String) : JSVal
  | arr (elems : List JSVal) : JSVal
  | obj (fields : List (String × JSVal)) : JSVal

/-- JavaScript truthiness of a JSON-representable value
(NaN cannot occur in a parsed JSON body). -/
def truthy : JSVal → Bool
  | .jsUndefined => false
  | .jsNull => false
  | .bool b => b
  | .num q => decide (q ≠ 0)
  | .str s => decide (s ≠ "")
  | .arr _ => true
  | .obj _ => true

/-- Property lookup inside a JS object; `JSON.parse` keeps the last
occurrence of a duplicated key. -/
def jsField (fields : List (String × JSVal)) (k : String) : JSVal :=
  match fields.reverse.find? (fun p => p.1 == k) with
  | some p => p.2
  | none => .jsUndefined

/-- Model of the property access `v.k`: throws a TypeError on `null` and
`undefined`, yields `undefined` on primitives without that property. -/
def getProp (v : JSVal) (k : String) : Except Unit JSVal :=
  match v with
  | .jsUndefined => .error ()
  | .jsNull => .error ()
  | .obj fields => .ok (jsField fields k)
  | _ => .ok .jsUndefined

/-- Property access `v.k` on a value already known not to be null or
undefined (every use in `fetch` after `body.prompt` succeeded): total. -/
def propD (v : JSVal) (k : String) : JSVal :=
  match v with
  | .obj fields => jsField fields k
  | _ => .jsUndefined

/-- Model of the optional-chained access `v?.k`. -/
def optChain (v : JSVal) (k : String) : JSVal :=
  match v with
  | .jsUndefined => .jsUndefined
  | .jsNull => .jsUndefined
  | .obj fields => jsField fields k
  | _ => .jsUndefined

/-- Model of the nullish-coalescing operator `v ?? d`. -/
def nullish (v : JSVal) (d : JSVal) : JSVal :=
  match v with
  | .jsUndefined => d
  | .jsNull => d
  | _ => v

/-- Model of the strict comparison `v === "lit"` against a string literal. -/
def jsStrictEqStr (v : JSVal) (s : String) : Bool :=
  match v with
  | .str t => t == s
  | _ => false

/-- Model of `typeof n === "number" && Number.isFinite(n)` applied to a
JSON-representable value: the finite numeric payload, if any. -/
def toFiniteNum (v : JSVal) : Option ℚ :=
  match v with
  | .num q => some q
  | _ => none

/-- Model of JavaScript `Math.round` (round half toward positive infinity). -/
def jsRound (q : ℚ) : ℚ := ((⌊q + 1 / 2⌋ : ℤ) : ℚ)

/-- `clampInt` (lines 132-135).  The first argument is the result of the
`typeof`/`Number.isFinite` test (`none` for any non-finite-number input). -/
def clampInt (n : Option ℚ) (lo hi fb : ℚ) : ℚ :=
  min hi (max lo (match n with | some q => jsRound q | none => fb))

/-- `clampNum` (lines 137-140). -/
def clampNum (n : Option ℚ) (lo hi fb : ℚ) : ℚ :=
  min hi (max lo (n.getD fb))

/-- The seed parameter built by both backend branches (lines 218 and 272):
`...(typeof body.seed === "number" ? { seed: Math.floor(body.seed) } : {})`. -/
def seedParam (v : JSVal) : Option ℚ :=
  match v with
  | .num q => some ((⌊q⌋ : ℤ) : ℚ)
  | _ => none

/-- Decimal rendering of integers is exact; the textual rendering of
non-integer numbers (JS prints decimals) is abstracted as `num/den`.
No verified property depends on this rendering. -/
def qToString (q : ℚ) : String :=
  if q.den = 1 then toString q.num else toString q.num ++ "/" ++ toString q.den

mutual

/-- Model of the JavaScript string coercion `String(v)` for
JSON-representable values. -/
def jsToString : JSVal → String
  | .jsUndefined => "undefined"
  | .jsNull => "null"
  | .bool true => "true"
  | .bool false => "false"
  | .num q => qToString q
  | .str s => s
  | .arr l => String.intercalate "," (jsToStringList l)
  | .obj _ => "[object Object]"

/-- String coercion of every element of an array. -/
def jsToStringList : List JSVal → List String
  | [] => []
  | v :: vs => jsToString v :: jsToStringList vs

end

/-- The `styleLine` selection inside `buildStyledPrompt` (line 118):
`style === "animated3d" ? animated3d : storybook`. -/
def styleLine (style : JSVal) : String :=
  if jsStrictEqStr style "animated3d" then animated3d else storybook

/-- The template literal `full` inside `buildStyledPrompt` (lines 121-127):
the naive concatenation before length limiting. -/
def fullPrompt (userPrompt : String) (style : JSVal) : String :=
  jsTrim userPrompt ++ "\n\n" ++ cropSafe ++ "\n" ++ styleLine style ++ "\n" ++
    antiText ++ "\n" ++ avoidTextProps ++ "\n" ++ baseSafety

/-- `buildStyledPrompt` (lines 91-130).  The `style` parameter is kept as a
runtime JS value: the TS annotation says `string` but the call site passes
the raw `body.style ?? "storybook"`. -/
def buildStyledPrompt (userPrompt : String) (style : JSVal) : String :=
  trimToMaxPrompt (fullPrompt userPrompt style)

/-- Modelled from the spec: the concatenation the spec describes for claim
C9, with *every* adjacent pair of parts separated by a blank line.  Used
only to compare the spec's wording with the source's `fullPrompt`. -/
def specBlankLineConcat (userPrompt : String) (style : JSVal) : String :=
  jsTrim userPrompt ++ "\n\n" ++ cropSafe ++ "\n\n" ++ styleLine style ++ "\n\n" ++
    antiText ++ "\n\n" ++ avoidTextProps ++ "\n\n" ++ baseSafety

/-- The worker configuration (`Env`, lines 1-12); the `AI` binding is passed
to `fetch` separately as two behaviour functions. -/
structure Env where
  API_KEY : Option String
  ALLOWED_ORIGIN : Option String
  ALLOWED_ORIGINS : Option String

/-- The parts of an incoming request that the worker reads.  `jsonBody` is
the result of `request.json()`: `none` models a JSON parse failure. -/
structure RequestModel where
  method : String
  pathname : String
  origin : Option String
  authorization : Option String
  jsonBody : Option JSVal

/-- A response header value: a string, or a number whose decimal rendering
(`String(n)` in JS) is kept symbolic. -/
inductive HVal where
  | hs (s : String) : HVal
  | hn (q : ℚ) : HVal

/-- A response body: null, text, or raw image bytes. -/
inductive BodyVal where
  | empty : BodyVal
  | text (s : String) : BodyVal
  | bytes (bs : List Nat) : BodyVal

/-- The observable parts of a `Response`. -/
structure ResponseModel where
  status : Nat
  body : BodyVal
  headers : List (String × HVal)

/-- Model of `Headers.set`: replace any existing header named `k`. -/
def setH (hdrs : List (String × HVal)) (k : String) (v : HVal) : List (String × HVal) :=
  hdrs.filter (fun p => !(p.1 == k)) ++ [(k, v)]

/-- First (and, after `setH`, only) value of header `k`. -/
def lookupH (hdrs : List (String × HVal)) (k : String) : Option HVal :=
  (hdrs.find? (fun p => p.1 == k)).map Prod.snd

/-- The hardcoded default allowlist (lines 28-35). -/
def defaultOrigins : List String :=
  ["http://localhost:8080", "http://127.0.0.1:8080", "http://[::1]:8080",
   "https://www.webhtml5.info", "https://webhtml5.info"]

/-- `Set.add`: insert without duplicating (JS `Set` membership semantics). -/
def setAdd (l : List String) (x : String) : List String :=
  if x ∈ l then l else l ++ [x]

/-- `s.split(",")` on the underlying character list. -/
def splitCommaL : List Char → List (List Char)
  | [] => [[]]
  | c :: cs =>
    if c = ',' then [] :: splitCommaL cs
    else
      match splitCommaL cs with
      | [] => [[c]]
      | p :: ps => (c :: p) :: ps

/-- Model of JavaScript `s.split(",")`. -/
def jsSplitComma (s : String) : List String := (splitCommaL s.data).map String.mk

/-- The for-loop over `env.ALLOWED_ORIGINS.split(",")` (lines 40-43):
trim each entry, add it if nonempty. -/
def addParts (acc : List String) : List String → List String
  | [] => acc
  | part :: parts =>
    addParts (if jsTrim part ≠ "" then setAdd acc (jsTrim part) else acc) parts

/-- `parseAllowedOrigins` (lines 27-47). -/
def parseAllowedOrigins (env : Env) : List String :=
  let s0 := defaultOrigins
  let s1 :=
    match env.ALLOWED_ORIGIN with
    | some a => if jsTrim a ≠ "" then setAdd s0 (jsTrim a) else s0
    | none => s0
  match env.ALLOWED_ORIGINS with
  | some s => if jsTrim s ≠ "" then addParts s1 (jsSplitComma s) else s1
  | none => s1

/-- `corsHeaders` (lines 49-69). -/
def corsHeaders (request : RequestModel) (env : Env) : List (String × HVal) :=
  let origin := request.origin.getD ""
  let allowed := parseAllowedOrigins env
  let base : List (String × HVal) :=
    [("Vary", .hs "Origin"),
     ("Access-Control-Allow-Methods", .hs "POST, OPTIONS"),
     ("Access-Control-Allow-Headers", .hs "Content-Type, Authorization"),
     ("Access-Control-Max-Age", .hs "86400"),
     ("Access-Control-Expose-Headers",
      .hs "X-Model, X-Steps, X-Style, X-Num-Steps, X-Guidance, X-Prompt-Chars")]
  if origin ≠ "" ∧ origin ∈ allowed then
    base ++ [("Access-Control-Allow-Origin", .hs origin)]
  else base

/-- `respond` (lines 71-81): overlay the CORS headers (via `Headers.set`)
on the response-specific headers. -/
def respond (request : RequestModel) (env : Env) (body : BodyVal) (status : Nat)
    (headers : List (String × HVal)) : ResponseModel :=
  { status := status
    body := body
    headers := (corsHeaders request env).foldl (fun acc kv => setH acc kv.1 kv.2) headers }

/-- The optional API-key gate (lines 184-191).  `true` means the request is
rejected with 401. -/
def authFailed (apiKey : Option String) (authorization : Option String) : Bool :=
  match apiKey with
  | none => false
  | some key =>
    if key = "" then false
    else
      let auth := authorization.getD ""
      let token : String :=
        if "Bearer ".data.isPrefixOf auth.data then ⟨auth.data.drop 7⟩ else ""
      decide (token ≠ key)

/-- Parameters passed to the flux backend (lines 215-219). -/
structure FluxInputs where
  prompt : String
  steps : ℚ
  seed : Option ℚ

/-- Parameters passed to the sdxl backend (lines 263-273). -/
structure SdxlInputs where
  prompt : String
  negative_prompt : String
  width : ℚ
  height : ℚ
  num_steps : ℚ
  guidance : ℚ
  seed : Option ℚ

/-- The message recovered from a thrown value `e` by the catch blocks
(lines 243 and 291); the thrown value is modelled as its string form. -/
def errMsg (e : String) : String := if e = "" then "AI run error" else e

/-- A sextet of base64 values to bytes, three at a time. -/
def atobCore : List Nat → List Nat
  | a :: b :: c :: d :: rest =>
    (a * 4 + b / 16) :: ((b % 16) * 16 + c / 4) :: ((c % 4) * 64 + d) :: atobCore rest
  | [a, b, c] => [a * 4 + b / 16, (b % 16) * 16 + c / 4]
  | [a, b] => [a * 4 + b / 16]
  | [_] => []
  | [] => []

/-- Value of a base64 alphabet character. -/
def b64Val (c : Char) : Option Nat :=
  if 'A' ≤ c ∧ c ≤ 'Z' then some (c.toNat - 65)
  else if 'a' ≤ c ∧ c ≤ 'z' then some (c.toNat - 97 + 26)
  else if '0' ≤ c ∧ c ≤ '9' then some (c.toNat - 48 + 52)
  else if c = '+' then some 62
  else if c = '/' then some 63
  else none

/-- Model of the platform builtin `atob` (forgiving base64 decode): strip
ASCII whitespace, strip trailing padding, reject stray characters and
impossible lengths, decode to a byte string.  No verified property depends
on the decoded bytes. -/
def atob (s : String) : Except String (List Char) :=
  let cs := s.data.filter (fun c => !(c.toNat ∈ [9, 10, 12, 13, 32]))
  let core := ((cs.reverse.dropWhile (fun c => c = '=')).reverse)
  if core.length % 4 = 1 then .error "Invalid character"
  else
    match core.mapM b64Val with
    | none => .error "Invalid character"
    | some vals => .ok ((atobCore vals).map Char.ofNat)

/-- The flux branch of the handler (lines 211-246), after prompt
construction.  `body` is non-null here (its `prompt` access succeeded),
so property access is total. -/
def fluxBranch (request : RequestModel) (env : Env) (body : JSVal) (prompt : String)
    (styleJ : JSVal) (aiFlux : FluxInputs → Except String JSVal) : ResponseModel :=
  let steps := clampInt (toFiniteNum (propD body "steps")) 1 8 6
  match aiFlux { prompt := prompt, steps := steps, seed := seedParam (propD body "seed") } with
  | .error e => respond request env (.text ("Upstream AI error: " ++ errMsg e)) 502 []
  | .ok response =>
    match optChain response "image" with
    | .str b64 =>
      if b64 = "" then respond request env (.text "Model returned no image") 502 []
      else
        match atob b64 with
        | .error e => respond request env (.text ("Upstream AI error: " ++ errMsg e)) 502 []
        | .ok chars =>
          respond request env (.bytes (chars.map Char.toNat)) 200
            [("Content-Type", .hs "image/jpeg"),
             ("Cache-Control", .hs "no-store"),
             ("X-Model", .hs "flux-1-schnell"),
             ("X-Steps", .hn steps),
             ("X-Style", .hs (jsToString styleJ)),
             ("X-Prompt-Chars", .hn (prompt.length : ℚ))]
    | _ => respond request env (.text "Model returned no image") 502 []

/-- The sdxl branch of the handler (lines 251-293). -/
def sdxlBranch (request : RequestModel) (env : Env) (body : JSVal) (prompt : String)
    (styleJ : JSVal) (aiSdxl : SdxlInputs → Except String (List Nat)) : ResponseModel :=
  let width := clampInt (toFiniteNum (propD body "width")) 256 2048 1344
  let height := clampInt (toFiniteNum (propD body "height")) 256 2048 768
  let num_steps := clampInt (toFiniteNum (propD body "num_steps")) 1 20 20
  let guidance := clampNum (toFiniteNum (propD body "guidance")) 1 20 (15 / 2)
  let negV := propD body "negative_prompt"
  let negative_prompt :=
    if truthy negV then jsToString negV ++ ", " ++ strongNoTextNegative
    else strongNoTextNegative
  match aiSdxl { prompt := prompt, negative_prompt := negative_prompt, width := width,
                 height := height, num_steps := num_steps, guidance := guidance,
                 seed := seedParam (propD body "seed") } with
  | .error e => respond request env (.text ("Upstream AI error: " ++ errMsg e)) 502 []
  | .ok imgBytes =>
    respond request env (.bytes imgBytes) 200
      [("Content-Type", .hs "image/jpeg"),
       ("Cache-Control", .hs "no-store"),
       ("X-Model", .hs "sdxl-base-1.0"),
       ("X-Num-Steps", .hn num_steps),
       ("X-Guidance", .hn guidance),
       ("X-Style", .hs (jsToString styleJ)),
       ("X-Prompt-Chars", .hn (prompt.length : ℚ))]

/-- Lines 204-293: model selection, prompt composition and backend
dispatch, reached only after the prompt was validated to be a truthy
string of trimmed length at least 3. -/
def handleGenerate (request : RequestModel) (env : Env) (body : JSVal) (promptRaw : String)
    (aiFlux : FluxInputs → Except String JSVal)
    (aiSdxl : SdxlInputs → Except String (List Nat)) : ResponseModel :=
  let modelJ := nullish (propD body "model") (.str "flux")
  let styleJ := nullish (propD body "style") (.str "storybook")
  let prompt := buildStyledPrompt promptRaw styleJ
  if jsStrictEqStr modelJ "flux" then fluxBranch request env body prompt styleJ aiFlux
  else sdxlBranch request env body prompt styleJ aiSdxl

/-- The version banner (line 165). -/
def versionBanner : String :=
  "ebook-image-forge v5 (prompt<=2048 + resilient CORS + stronger no-text)"

/-- The exported `fetch` handler (lines 157-295).  The result is
`Except.error ()` when evaluation throws past the handler (an uncaught
TypeError), and `Except.ok` with the produced response otherwise. -/
def fetch (request : RequestModel) (env : Env)
    (aiFlux : FluxInputs → Except String JSVal)
    (aiSdxl : SdxlInputs → Except String (List Nat)) : Except Unit ResponseModel :=
  if request.pathname = "/__version" then
    .ok (respond request env (.text versionBanner) 200 [])
  else if request.method = "OPTIONS" then
    .ok (respond request env .empty 204 [])
  else if request.pathname ≠ "/api/generate" then
    .ok (respond request env (.text "Not found") 404 [])
  else if request.method ≠ "POST" then
    .ok (respond request env (.text "Method not allowed") 405 [])
  else if authFailed env.API_KEY request.authorization then
    .ok (respond request env (.text "Unauthorized") 401 [])
  else
    match request.jsonBody with
    | none => .ok (respond request env (.text "Invalid JSON") 400 [])
    | some body =>
      match getProp body "prompt" with
      | .error e => .error e
      | .ok promptV =>
        if truthy promptV then
          match promptV with
          | .str promptRaw =>
            if (jsTrim promptRaw).length < 3 then
              .ok (respond request env (.text "prompt is required") 400 [])
            else .ok (handleGenerate request env body promptRaw aiFlux aiSdxl)
          | _ => .error ()
        else .ok (respond request env (.text "prompt is required") 400 [])

/-- The request bodies on which the handler cannot throw: anything except a
null body or a truthy non-string `prompt` field. -/
def bodyHandled (b : Option JSVal) : Bool :=
  match b with
  | none => true
  | some body =>
    match getProp body "prompt" with
    | .error _ => false
    | .ok v => !truthy v || (match v with | .str _ => true | _ => false)

/-! ### Lemmas about JS trimming -/

lemma trimStartL_cons_of_not_ws {c : Char} (l : List Char) (hc : jsWS c = false) :
    trimStartL (c :: l) = c :: l := by
  simp [trimStartL, List.dropWhile_cons, hc]

lemma trimEndL_append_of_not_ws {d : Char} (l : List Char) (hd : jsWS d = false) :
    trimEndL (l ++ [d]) = l ++ [d] := by
  simp [trimEndL, List.dropWhile_cons, hd]

lemma trimL_singleton_of_not_ws {d : Char} (hd : jsWS d = false) :
    trimL [d] = [d] := by
  simp [trimL, trimStartL, trimEndL, List.dropWhile_cons, hd]

lemma trimL_eq_self_of {c d : Char} (m : List Char) (hc : jsWS c = false)
    (hd : jsWS d = false) : trimL (c :: (m ++ [d])) = c :: (m ++ [d]) := by
  have h1 : trimStartL (c :: (m ++ [d])) = c :: (m ++ [d]) :=
    trimStartL_cons_of_not_ws _ hc
  have h2 : trimEndL ((c :: m) ++ [d]) = (c :: m) ++ [d] :=
    trimEndL_append_of_not_ws _ hd
  rw [trimL, h1]
  simpa using h2

lemma trimL_eq_self_head_last {l : List Char} {c d : Char} (hh : l.head? = some c)
    (hl : l.getLast? = some d) (hc : jsWS c = false) (hd : jsWS d = false) :
    trimL l = l := by
  obtain ⟨l', rfl⟩ := List.getLast?_eq_some_iff.mp hl
  cases l' with
  | nil =>
    obtain rfl : d = c := by simpa using hh
    exact trimL_singleton_of_not_ws hc
  | cons x xs =>
    obtain rfl : x = c := by simpa using hh
    exact trimL_eq_self_of xs hc hd

lemma head?_trimStartL_not_ws :
    ∀ {l : List Char} {c : Char}, (trimStartL l).head? = some c → jsWS c = false := by
  intro l
  induction l with
  | nil => intro c h; simp [trimStartL] at h
  | cons x xs ih =>
    intro c h
    by_cases hx : jsWS x
    · rw [trimStartL, List.dropWhile_cons, if_pos hx] at h
      exact ih h
    · rw [trimStartL, List.dropWhile_cons, if_neg hx] at h
      obtain rfl : x = c := by simpa using h
      simpa using hx

lemma exists_prefix_dropWhile (p : Char → Bool) :
    ∀ (l : List Char), ∃ k, l = k ++ l.dropWhile p := by
  intro l
  induction l with
  | nil => exact ⟨[], rfl⟩
  | cons x xs ih =>
    by_cases hx : p x
    · obtain ⟨k, hk⟩ := ih
      refine ⟨x :: k, ?_⟩
      rw [List.dropWhile_cons, if_pos hx, List.cons_append, ← hk]
    · exact ⟨[], by rw [List.dropWhile_cons, if_neg hx]; rfl⟩

lemma exists_trimEndL_append (l : List Char) : ∃ m, l = trimEndL l ++ m := by
  obtain ⟨k, hk⟩ := exists_prefix_dropWhile jsWS l.reverse
  refine ⟨k.reverse, ?_⟩
  have h2 := congrArg List.reverse hk
  simpa [trimEndL, List.reverse_append] using h2

lemma head?_trimL_not_ws {l : List Char} {c : Char} (h : (trimL l).head? = some c) :
    jsWS c = false := by
  obtain ⟨m, hm⟩ := exists_trimEndL_append (trimStartL l)
  apply head?_trimStartL_not_ws (l := l)
  rw [trimL] at h
  rw [hm, List.head?_append, h]
  rfl

/-! ### The composed prompt -/

set_option maxHeartbeats 1000000 in
lemma baseSafety_shape : ∃ bi, baseSafety.data = bi ++ ['.'] :=
  ⟨baseSafety.data.dropLast, by decide⟩

lemma jsTrim_eq_empty_iff {s : String} : jsTrim s = "" ↔ trimL s.data = [] := by
  rw [String.ext_iff]
  exact Iff.rfl

/-- When the trimmed user prompt is nonempty, the naive concatenation
built by `buildStyledPrompt` starts and ends with non-whitespace, so the
trim inside `trimToMaxPrompt` leaves it unchanged. -/
lemma data_jsTrim (s : String) : (jsTrim s).data = trimL s.data := rfl

lemma jsTrim_fullPrompt (u : String) (st : JSVal) (h : jsTrim u ≠ "") :
    jsTrim (fullPrompt u st) = fullPrompt u st := by
  obtain ⟨bi, hbi⟩ := baseSafety_shape
  have hdata : (fullPrompt u st).data =
      (jsTrim u).data ++ ("\n\n".data ++ (cropSafe.data ++ ("\n".data ++
        ((styleLine st).data ++ ("\n".data ++ (antiText.data ++ ("\n".data ++
        (avoidTextProps.data ++ ("\n".data ++ baseSafety.data))))))))) := by
    simp [fullPrompt, String.data_append]
  have hne : (jsTrim u).data ≠ [] := by
    intro hx
    exact h (String.ext hx)
  obtain ⟨c, t, hct⟩ : ∃ c t, (jsTrim u).data = c :: t := by
    cases hcc : (jsTrim u).data with
    | nil => exact absurd hcc hne
    | cons c t => exact ⟨c, t, rfl⟩
  have hc : jsWS c = false := by
    apply head?_trimL_not_ws (l := u.data)
    have h2 : (jsTrim u).data = trimL u.data := rfl
    rw [← h2, hct]
    rfl
  have hh : (fullPrompt u st).data.head? = some c := by
    rw [hdata, hct, List.cons_append]
    rfl
  have hl : (fullPrompt u st).data.getLast? = some '.' := by
    rw [hdata, hbi]
    rw [List.getLast?_append_of_ne_nil, List.getLast?_append_of_ne_nil,
      List.getLast?_append_of_ne_nil, List.getLast?_append_of_ne_nil,
      List.getLast?_append_of_ne_nil, List.getLast?_append_of_ne_nil,
      List.getLast?_append_of_ne_nil, List.getLast?_append_of_ne_nil,
      List.getLast?_append_of_ne_nil, List.getLast?_append_of_ne_nil,
      List.getLast?_concat] <;> simp
  rw [String.ext_iff, data_jsTrim]
  exact trimL_eq_self_head_last hh hl hc (by decide)

lemma trimToMaxPrompt_length_le (s : String) :
    (trimToMaxPrompt s).length ≤ MAX_PROMPT_CHARS := by
  rw [trimToMaxPrompt]
  split
  · omega
  · show ((jsTrim s).data.drop ((jsTrim s).length - MAX_PROMPT_CHARS)).length ≤ _
    rw [List.length_drop]
    have hl : (jsTrim s).length = (jsTrim s).data.length := rfl
    omega

/-! ### Lemmas about clamping -/

lemma minmax_fix {α : Type} [LinearOrder α] (lo hi v : α) :
    min hi (max lo (min hi (max lo v))) = min hi (max lo v) := by
  rcases le_total hi (max lo v) with h | h
  · rw [min_eq_left h]
    exact min_eq_left (le_max_right lo hi)
  · rw [min_eq_right h, ← max_assoc, max_self]
    exact min_eq_right h

lemma jsRound_intCast (w : ℤ) : jsRound ((w : ℚ)) = (w : ℚ) := by
  rw [jsRound, add_comm, Int.floor_add_int]
  norm_num

lemma jsRound_mono {a b : ℚ} (h : a ≤ b) : jsRound a ≤ jsRound b := by
  rw [jsRound, jsRound]
  exact_mod_cast Int.floor_le_floor (add_le_add_right h _)

/-! ### Lemmas about the header map -/

lemma find?_filter_of_imp {α : Type} (p q : α → Bool)
    (h : ∀ x, p x = true → q x = true) :
    ∀ (l : List α), (l.filter q).find? p = l.find? p := by
  intro l
  induction l with
  | nil => rfl
  | cons x xs ih =>
    by_cases hq : q x
    · rw [List.filter_cons_of_pos hq]
      cases hp : p x
      · rw [List.find?_cons_of_neg _ (by simp [hp]), List.find?_cons_of_neg _ (by simp [hp]), ih]
      · rw [List.find?_cons_of_pos _ hp, List.find?_cons_of_pos _ hp]
    · have hp : p x = false := by
        cases hpx : p x
        · rfl
        · exact absurd (h x hpx) (by simpa using hq)
      rw [List.filter_cons_of_neg hq, List.find?_cons_of_neg _ (by simp [hp]), ih]

lemma find?_filter_ne (hdrs : List (String × HVal)) (k : String) :
    (hdrs.filter (fun p => !(p.1 == k))).find? (fun p => p.1 == k) = none := by
  rw [List.find?_eq_none]
  intro x hx
  have h2 := (List.mem_filter.mp hx).2
  simpa using h2

lemma lookupH_setH_self (hdrs : List (String × HVal)) (k : String) (v : HVal) :
    lookupH (setH hdrs k v) k = some v := by
  rw [lookupH, setH, List.find?_append, find?_filter_ne]
  simp [List.find?]

lemma lookupH_setH_ne (hdrs : List (String × HVal)) (k kk : String) (v : HVal)
    (h : kk ≠ k) : lookupH (setH hdrs k v) kk = lookupH hdrs kk := by
  rw [lookupH, setH, List.find?_append]
  rw [find?_filter_of_imp _ _ (fun x hx => ?_) hdrs]
  · have h1 : List.find? (fun p => p.1 == kk) [(k, v)] = none := by
      rw [List.find?_cons_of_neg _ (by simp [Ne.symm h])]
      rfl
    rw [h1, Option.or_none]
    rfl
  · have hx2 : x.1 = kk := by simpa using hx
    simp [hx2, h]

lemma headers_respond (request : RequestModel) (env : Env) (b : BodyVal) (st : Nat)
    (extra : List (String × HVal)) :
    (respond request env b st extra).headers =
      (corsHeaders request env).foldl (fun acc kv => setH acc kv.1 kv.2) extra := rfl

lemma lookupH_respond_vary (request : RequestModel) (env : Env) (b : BodyVal) (st : Nat)
    (extra : List (String × HVal)) :
    lookupH (respond request env b st extra).headers "Vary" = some (.hs "Origin") := by
  rw [headers_respond]
  simp only [corsHeaders]
  split
  · simp only [List.cons_append, List.nil_append, List.foldl_cons, List.foldl_nil]
    rw [lookupH_setH_ne _ _ _ _ (by decide), lookupH_setH_ne _ _ _ _ (by decide),
        lookupH_setH_ne _ _ _ _ (by decide), lookupH_setH_ne _ _ _ _ (by decide),
        lookupH_setH_ne _ _ _ _ (by decide), lookupH_setH_self]
  · simp only [List.foldl_cons, List.foldl_nil]
    rw [lookupH_setH_ne _ _ _ _ (by decide), lookupH_setH_ne _ _ _ _ (by decide),
        lookupH_setH_ne _ _ _ _ (by decide), lookupH_setH_ne _ _ _ _ (by decide),
        lookupH_setH_self]

lemma lookupH_respond_acam (request : RequestModel) (env : Env) (b : BodyVal) (st : Nat)
    (extra : List (String × HVal)) :
    lookupH (respond request env b st extra).headers "Access-Control-Allow-Methods" =
      some (.hs "POST, OPTIONS") := by
  rw [headers_respond]
  simp only [corsHeaders]
  split
  · simp only [List.cons_append, List.nil_append, List.foldl_cons, List.foldl_nil]
    rw [lookupH_setH_ne _ _ _ _ (by decide), lookupH_setH_ne _ _ _ _ (by decide),
        lookupH_setH_ne _ _ _ _ (by decide), lookupH_setH_ne _ _ _ _ (by decide),
        lookupH_setH_self]
  · simp only [List.foldl_cons, List.foldl_nil]
    rw [lookupH_setH_ne _ _ _ _ (by decide), lookupH_setH_ne _ _ _ _ (by decide),
        lookupH_setH_ne _ _ _ _ (by decide), lookupH_setH_self]

lemma lookupH_respond_acao_of_allowed (request : RequestModel) (env : Env) (b : BodyVal)
    (st : Nat) (extra : List (String × HVal)) (h1 : request.origin.getD "" ≠ "")
    (h2 : request.origin.getD "" ∈ parseAllowedOrigins env) :
    lookupH (respond request env b st extra).headers "Access-Control-Allow-Origin" =
      some (.hs (request.origin.getD "")) := by
  rw [headers_respond]
  simp only [corsHeaders]
  rw [if_pos ⟨h1, h2⟩]
  simp only [List.cons_append, List.nil_append, List.foldl_cons, List.foldl_nil]
  rw [lookupH_setH_self]

lemma lookupH_respond_acao_else (request : RequestModel) (env : Env) (b : BodyVal)
    (st : Nat) (extra : List (String × HVal))
    (h : ¬(request.origin.getD "" ≠ "" ∧ request.origin.getD "" ∈ parseAllowedOrigins env))
    (hx : lookupH extra "Access-Control-Allow-Origin" = none) :
    lookupH (respond request env b st extra).headers "Access-Control-Allow-Origin" = none := by
  rw [headers_respond]
  simp only [corsHeaders]
  rw [if_neg h]
  simp only [List.foldl_cons, List.foldl_nil]
  rw [lookupH_setH_ne _ _ _ _ (by decide), lookupH_setH_ne _ _ _ _ (by decide),
      lookupH_setH_ne _ _ _ _ (by decide), lookupH_setH_ne _ _ _ _ (by decide),
      lookupH_setH_ne _ _ _ _ (by decide), hx]

/-! ### Lemmas about the origin allowlist -/

lemma mem_setAdd {y x : String} (l : List String) : y ∈ setAdd l x ↔ y ∈ l ∨ y = x := by
  rw [setAdd]
  split
  · rename_i h
    constructor
    · exact Or.inl
    · rintro (hy | rfl)
      · exact hy
      · exact h
  · simp [List.mem_append]

lemma mem_addParts : ∀ (parts : List String) (acc : List String) (y : String),
    y ∈ addParts acc parts ↔
      y ∈ acc ∨ ∃ part ∈ parts, jsTrim part ≠ "" ∧ y = jsTrim part := by
  intro parts
  induction parts with
  | nil => intro acc y; simp [addParts]
  | cons p ps ih =>
    intro acc y
    rw [addParts, ih]
    by_cases hp : jsTrim p = ""
    · rw [if_neg (fun hcon => hcon hp)]
      constructor
      · rintro (hacc | ⟨part, hmem, hne, hy⟩)
        · exact Or.inl hacc
        · exact Or.inr ⟨part, List.mem_cons_of_mem _ hmem, hne, hy⟩
      · rintro (hacc | ⟨part, hmem, hne, hy⟩)
        · exact Or.inl hacc
        · rcases List.mem_cons.mp hmem with rfl | hmem2
          · exact absurd hp hne
          · exact Or.inr ⟨part, hmem2, hne, hy⟩
    · rw [if_pos hp]
      constructor
      · rintro (hacc | ⟨part, hmem, hne, hy⟩)
        · rcases (mem_setAdd acc).mp hacc with h2 | h2
          · exact Or.inl h2
          · exact Or.inr ⟨p, List.mem_cons_self _ _, hp, h2⟩
        · exact Or.inr ⟨part, List.mem_cons_of_mem _ hmem, hne, hy⟩
      · rintro (hacc | ⟨part, hmem, hne, hy⟩)
        · exact Or.inl ((mem_setAdd acc).mpr (Or.inl hacc))
        · rcases List.mem_cons.mp hmem with rfl | hmem2
          · exact Or.inl ((mem_setAdd acc).mpr (Or.inr hy))
          · exact Or.inr ⟨part, hmem2, hne, hy⟩

lemma mem_parseAllowedOrigins (env : Env) (y : String) :
    y ∈ parseAllowedOrigins env ↔
      y ∈ defaultOrigins ∨
      (∃ a, env.ALLOWED_ORIGIN = some a ∧ jsTrim a ≠ "" ∧ y = jsTrim a) ∨
      (∃ s, env.ALLOWED_ORIGINS = some s ∧ jsTrim s ≠ "" ∧
        ∃ part ∈ jsSplitComma s, jsTrim part ≠ "" ∧ y = jsTrim part) := by
  rcases env with ⟨ak, ao, aos⟩
  cases ao with
  | none =>
    cases aos with
    | none => simp [parseAllowedOrigins]
    | some s =>
      by_cases hs : jsTrim s = ""
      · simp [parseAllowedOrigins, hs]
      · simp only [parseAllowedOrigins, if_pos hs, mem_addParts, hs]
        simp [hs]
  | some a =>
    cases aos with
    | none =>
      by_cases ha : jsTrim a = ""
      · simp [parseAllowedOrigins, ha]
      · simp only [parseAllowedOrigins, if_pos ha, mem_setAdd]
        simp [ha]
    | some s =>
      by_cases ha : jsTrim a = "" <;> by_cases hs : jsTrim s = ""
      · simp [parseAllowedOrigins, ha, hs]
      · simp only [parseAllowedOrigins, ha, hs, if_pos hs, mem_addParts]
        simp [ha, hs]
      · simp only [parseAllowedOrigins, ha, hs, if_pos ha]
        simp [ha, hs, mem_setAdd]
      · simp only [parseAllowedOrigins, if_pos ha, if_pos hs, mem_addParts, mem_setAdd]
        simp only [Option.some.injEq]
        constructor
        · rintro ((hd | hy) | hp)
          · exact Or.inl hd
          · exact Or.inr (Or.inl ⟨a, rfl, ha, hy⟩)
          · exact Or.inr (Or.inr ⟨s, rfl, hs, hp⟩)
        · rintro (hd | ⟨a2, rfl, _, hy⟩ | ⟨s2, rfl, _, hp⟩)
          · exact Or.inl (Or.inl hd)
          · exact Or.inl (Or.inr hy)
          · exact Or.inr hp

lemma empty_not_mem_parseAllowedOrigins (env : Env) : "" ∉ parseAllowedOrigins env := by
  rw [mem_parseAllowedOrigins]
  rintro (h | ⟨a, _, hne, he⟩ | ⟨s, _, _, part, _, hne, he⟩)
  · exact absurd h (by decide)
  · exact hne he.symm
  · exact hne he.symm

lemma lookupH_corsHeaders_acao (request : RequestModel) (env : Env) :
    lookupH (corsHeaders request env) "Access-Control-Allow-Origin" =
      if request.origin.getD "" ≠ "" ∧ request.origin.getD "" ∈ parseAllowedOrigins env
      then some (.hs (request.origin.getD "")) else none := by
  simp only [corsHeaders]
  split
  · simp [lookupH, List.find?]
  · simp [lookupH, List.find?]

lemma respond_acao_echo (request : RequestModel) (env : Env) (b : BodyVal) (st : Nat)
    (extra : List (String × HVal)) (o : String) (ho : request.origin = some o)
    (hmem : o ∈ parseAllowedOrigins env) :
    lookupH (respond request env b st extra).headers "Access-Control-Allow-Origin" =
      some (.hs o) := by
  have h1 : request.origin.getD "" = o := by rw [ho]; rfl
  have h2 : o ≠ "" := fun he => empty_not_mem_parseAllowedOrigins env (he ▸ hmem)
  have h3 := lookupH_respond_acao_of_allowed request env b st extra
    (by rw [h1]; exact h2) (by rw [h1]; exact hmem)
  rw [h1] at h3
  exact h3

/-! ### Lemmas about authentication -/

lemma token_eq_iff (s k : String) (hk : k ≠ "") :
    ((if "Bearer ".data.isPrefixOf s.data then (⟨s.data.drop 7⟩ : String) else "") = k)
      ↔ s = "Bearer " ++ k := by
  by_cases hp : "Bearer ".data.isPrefixOf s.data
  · rw [if_pos hp]
    obtain ⟨rest, hrest⟩ : ∃ rest, s.data = "Bearer ".data ++ rest := by
      rcases List.isPrefixOf_iff_prefix.mp hp with ⟨t, ht⟩
      exact ⟨t, ht.symm⟩
    have hdrop : s.data.drop 7 = rest := by
      rw [hrest]
      exact List.drop_left "Bearer ".data rest
    constructor
    · intro he
      have he2 : rest = k.data := by
        rw [← hdrop]
        exact congrArg String.data he
      apply String.ext
      rw [String.data_append, hrest, he2]
    · intro he
      apply String.ext
      show s.data.drop 7 = k.data
      rw [he, String.data_append] at hrest
      rw [hdrop]
      exact (List.append_cancel_left hrest).symm
  · rw [if_neg hp]
    constructor
    · intro he
      exact absurd he.symm hk
    · intro he
      exfalso
      apply hp
      apply List.isPrefixOf_iff_prefix.mpr
      rw [he, String.data_append]
      exact List.prefix_append _ _

lemma authFailed_some_iff (k : String) (a : Option String) (hk : k ≠ "") :
    (authFailed (some k) a = false) ↔ a = some ("Bearer " ++ k) := by
  rw [authFailed, if_neg hk]
  rw [decide_eq_false_iff_not, not_not]
  cases a with
  | none =>
    simp only [Option.getD]
    rw [token_eq_iff _ _ hk]
    constructor
    · intro he
      have h2 := congrArg String.data he
      rw [String.data_append] at h2
      have h3 := (List.append_eq_nil.mp h2.symm).1
      exact absurd h3 (by decide)
    · intro hcon
      cases hcon
  | some s =>
    simp only [Option.getD]
    rw [token_eq_iff _ _ hk]
    exact ⟨fun h => by rw [h], fun h => by injection h⟩

lemma authFailed_empty (a : Option String) : authFailed (some "") a = false := rfl

lemma authFailed_none (a : Option String) : authFailed none a = false := rfl

/-! ### Shape of every handler response -/

lemma fluxBranch_shape (request : RequestModel) (env : Env) (body : JSVal) (prompt : String)
    (styleJ : JSVal) (aiF : FluxInputs → Except String JSVal) :
    ∃ b st extra, fluxBranch request env body prompt styleJ aiF = respond request env b st extra
      ∧ st ≠ 401 := by
  simp only [fluxBranch]
  repeat' split
  all_goals exact ⟨_, _, _, rfl, by decide⟩

lemma sdxlBranch_shape (request : RequestModel) (env : Env) (body : JSVal) (prompt : String)
    (styleJ : JSVal) (aiS : SdxlInputs → Except String (List Nat)) :
    ∃ b st extra, sdxlBranch request env body prompt styleJ aiS = respond request env b st extra
      ∧ st ≠ 401 := by
  simp only [sdxlBranch]
  repeat' split
  all_goals exact ⟨_, _, _, rfl, by decide⟩

lemma handleGenerate_shape (request : RequestModel) (env : Env) (body : JSVal)
    (promptRaw : String) (aiF : FluxInputs → Except String JSVal)
    (aiS : SdxlInputs → Except String (List Nat)) :
    ∃ b st extra,
      handleGenerate request env body promptRaw aiF aiS = respond request env b st extra
      ∧ st ≠ 401 := by
  simp only [handleGenerate]
  split
  · exact fluxBranch_shape _ _ _ _ _ _
  · exact sdxlBranch_shape _ _ _ _ _ _

/-- Every non-throwing run of the handler produces its response through
`respond`, and a 401 status occurs only when the API-key gate rejected. -/
lemma fetch_ok_shape {request : RequestModel} {env : Env}
    {aiF : FluxInputs → Except String JSVal} {aiS : SdxlInputs → Except String (List Nat)}
    {r : ResponseModel} (h : fetch request env aiF aiS = .ok r) :
    ∃ b st extra, r = respond request env b st extra ∧
      (st = 401 → authFailed env.API_KEY request.authorization = true) := by
  simp only [fetch] at h
  split at h
  · injection h with h2
    exact ⟨_, _, _, h2.symm, fun hc => absurd hc (by decide)⟩
  · split at h
    · injection h with h2
      exact ⟨_, _, _, h2.symm, fun hc => absurd hc (by decide)⟩
    · split at h
      · injection h with h2
        exact ⟨_, _, _, h2.symm, fun hc => absurd hc (by decide)⟩
      · split at h
        · injection h with h2
          exact ⟨_, _, _, h2.symm, fun hc => absurd hc (by decide)⟩
        · split at h
          · rename_i hauth
            injection h with h2
            exact ⟨_, _, _, h2.symm, fun _ => hauth⟩
          · split at h
            · injection h with h2
              exact ⟨_, _, _, h2.symm, fun hc => absurd hc (by decide)⟩
            · split at h
              · exact Except.noConfusion h
              · split at h
                · split at h
                  · split at h
                    · injection h with h2
                      exact ⟨_, _, _, h2.symm, fun hc => absurd hc (by decide)⟩
                    · injection h with h2
                      obtain ⟨b, st, extra, hhe, hst⟩ := handleGenerate_shape request env _ _ aiF aiS
                      exact ⟨b, st, extra, by rw [← h2, hhe], fun hc => absurd hc hst⟩
                  all_goals exact Except.noConfusion h
                · injection h with h2
                  exact ⟨_, _, _, h2.symm, fun hc => absurd hc (by decide)⟩

/-! ### Claim theorems -/

/-- C1 (amended): for every user prompt and every style, the composed
prompt has length at most 2048; moreover, whenever the trimmed user prompt
is nonempty, the composer returns the naive concatenation `fullPrompt`
unchanged when its length is at most 2048, and exactly its last 2048
characters when it is longer. -/
theorem composer_length_and_tail (u : String) (st : JSVal) :
    (buildStyledPrompt u st).length ≤ 2048 ∧
    (jsTrim u ≠ "" →
      ((fullPrompt u st).length ≤ 2048 → buildStyledPrompt u st = fullPrompt u st) ∧
      (2048 < (fullPrompt u st).length →
        (buildStyledPrompt u st).data =
          (fullPrompt u st).data.drop ((fullPrompt u st).length - 2048))) := by
  refine ⟨?_, fun h => ⟨?_, ?_⟩⟩
  · have h2 := trimToMaxPrompt_length_le (fullPrompt u st)
    simpa [buildStyledPrompt, MAX_PROMPT_CHARS] using h2
  · intro hle
    have htr := jsTrim_fullPrompt u st h
    simp only [buildStyledPrompt, trimToMaxPrompt, htr, MAX_PROMPT_CHARS]
    rw [if_pos hle]
  · intro hgt
    have htr := jsTrim_fullPrompt u st h
    simp only [buildStyledPrompt, trimToMaxPrompt, htr, MAX_PROMPT_CHARS]
    rw [if_neg (by omega)]

/-- C1 witness: the length bound and the no-truncation identity at a
concrete prompt. -/
theorem composer_length_and_tail_witness :
    (buildStyledPrompt "abc" (.str "storybook")).length ≤ 2048 ∧
    buildStyledPrompt "abc" (.str "storybook") = fullPrompt "abc" (.str "storybook") := by
  have h := composer_length_and_tail "abc" (.str "storybook")
  exact ⟨h.1, (h.2 (by decide)).1 (by decide)⟩

/-- C1 counterexample: for the empty user prompt, the naive concatenation is
within budget but the composer does not return it unchanged (the trim inside
`trimToMaxPrompt` strips the leading blank line), refuting the claim's
"if L ≤ 2048 the result equals the concatenation unchanged" for every
prompt. -/
theorem composer_concat_counterexample :
    (fullPrompt "" (.str "storybook")).length ≤ 2048 ∧
    buildStyledPrompt "" (.str "storybook") ≠ fullPrompt "" (.str "storybook") := by
  refine ⟨by decide, by decide⟩

/-- C9 (amended): under no truncation and a nonempty trimmed prompt, the
composer concatenates, in order: trimmed user prompt, crop-safe clause,
style clause, anti-text clause, text-bearing-objects clause, content-safety
clause — but only the user prompt is followed by a blank line; the later
clauses are separated by single newlines. -/
theorem composer_clause_order (u : String) (st : JSVal) (h1 : jsTrim u ≠ "")
    (h2 : (fullPrompt u st).length ≤ 2048) :
    buildStyledPrompt u st =
      jsTrim u ++ "\n\n" ++ cropSafe ++ "\n" ++ styleLine st ++ "\n" ++ antiText ++ "\n" ++
        avoidTextProps ++ "\n" ++ baseSafety := by
  have htr := jsTrim_fullPrompt u st h1
  simp only [buildStyledPrompt, trimToMaxPrompt, htr, MAX_PROMPT_CHARS]
  rw [if_pos h2]
  rfl

/-- C9 witness: the clause order at a concrete prompt. -/
theorem composer_clause_order_witness :
    buildStyledPrompt "abc" (.str "animated3d") =
      jsTrim "abc" ++ "\n\n" ++ cropSafe ++ "\n" ++ styleLine (.str "animated3d") ++ "\n" ++
        antiText ++ "\n" ++ avoidTextProps ++ "\n" ++ baseSafety :=
  composer_clause_order "abc" (.str "animated3d") (by decide) (by decide)

/-- C9 counterexample: the composer's output differs from the
blank-line-between-every-pair concatenation the claim describes. -/
theorem composer_blank_line_counterexample :
    buildStyledPrompt "abc" (.str "storybook") ≠
      specBlankLineConcat "abc" (.str "storybook") := by
  decide

/-- C2: the `Access-Control-Allow-Origin` header equals the request's
Origin `o` exactly when `o` is in the computed allowlist, is absent
otherwise (also when the Origin header is missing), and the allowlist is
the default origins together with the trimmed nonempty single-origin
config and the trimmed nonempty entries of the comma-separated config. -/
theorem cors_origin_echo (m p : String) (a : Option String) (j : Option JSVal)
    (env : Env) (o : String) :
    (lookupH (corsHeaders ⟨m, p, some o, a, j⟩ env) "Access-Control-Allow-Origin" =
      if o ∈ parseAllowedOrigins env then some (.hs o) else none) ∧
    lookupH (corsHeaders ⟨m, p, none, a, j⟩ env) "Access-Control-Allow-Origin" = none ∧
    (o ∈ parseAllowedOrigins env ↔
      o ∈ defaultOrigins ∨
      (∃ s, env.ALLOWED_ORIGIN = some s ∧ jsTrim s ≠ "" ∧ o = jsTrim s) ∨
      (∃ s, env.ALLOWED_ORIGINS = some s ∧ jsTrim s ≠ "" ∧
        ∃ part ∈ jsSplitComma s, jsTrim part ≠ "" ∧ o = jsTrim part)) := by
  refine ⟨?_, ?_, mem_parseAllowedOrigins env o⟩
  · rw [lookupH_corsHeaders_acao]
    by_cases hmem : o ∈ parseAllowedOrigins env
    · have h2 : o ≠ "" := fun he => empty_not_mem_parseAllowedOrigins env (he ▸ hmem)
      rw [if_pos ⟨h2, hmem⟩, if_pos hmem]
      rfl
    · rw [if_neg (fun hc => hmem hc.2), if_neg hmem]
  · rw [lookupH_corsHeaders_acao]
    rw [if_neg (fun hc => hc.1 rfl)]

/-- C4 (amended): every OPTIONS request on any path other than `/__version`
is answered, before path and method routing, with status 204, no body, and
the full CORS header set (the `/__version` endpoint is checked first and
also answers OPTIONS requests, with a 200 text response). -/
theorem options_preflight (request : RequestModel) (env : Env)
    (aiF : FluxInputs → Except String JSVal) (aiS : SdxlInputs → Except String (List Nat))
    (hm : request.method = "OPTIONS") (hp : request.pathname ≠ "/__version") :
    fetch request env aiF aiS = .ok (respond request env .empty 204 []) ∧
    (respond request env .empty 204 []).status = 204 ∧
    (respond request env .empty 204 []).body = .empty ∧
    lookupH (respond request env .empty 204 []).headers "Vary" = some (.hs "Origin") ∧
    lookupH (respond request env .empty 204 []).headers "Access-Control-Allow-Methods" =
      some (.hs "POST, OPTIONS") ∧
    (∀ o, request.origin = some o → o ∈ parseAllowedOrigins env →
      lookupH (respond request env .empty 204 []).headers "Access-Control-Allow-Origin" =
        some (.hs o)) := by
  refine ⟨?_, rfl, rfl, lookupH_respond_vary _ _ _ _ _, lookupH_respond_acam _ _ _ _ _,
    fun o ho hmem => respond_acao_echo _ _ _ _ _ o ho hmem⟩
  simp only [fetch]
  rw [if_neg hp, if_pos hm]

/-- C4 witness: a concrete OPTIONS preflight from an allowed origin. -/
theorem options_preflight_witness :
    fetch ⟨"OPTIONS", "/api/generate", some "http://localhost:8080", none, none⟩
        ⟨none, none, none⟩ (fun _ => .error "") (fun _ => .error "") =
      .ok (respond ⟨"OPTIONS", "/api/generate", some "http://localhost:8080", none, none⟩
        ⟨none, none, none⟩ .empty 204 []) ∧
    lookupH (respond ⟨"OPTIONS", "/api/generate", some "http://localhost:8080", none, none⟩
        ⟨none, none, none⟩ .empty 204 []).headers "Access-Control-Allow-Origin" =
      some (.hs "http://localhost:8080") := by
  have h := options_preflight
    ⟨"OPTIONS", "/api/generate", some "http://localhost:8080", none, none⟩
    ⟨none, none, none⟩ (fun _ => .error "") (fun _ => .error "") rfl (by decide)
  exact ⟨h.1, h.2.2.2.2.2 "http://localhost:8080" rfl (by decide)⟩

/-- C4 counterexample: an OPTIONS request on the `/__version` path is
answered with status 200 (the version banner), not 204, refuting the
claim for every path. -/
theorem options_version_counterexample :
    Except.map ResponseModel.status
      (fetch ⟨"OPTIONS", "/__version", none, none, none⟩ ⟨none, none, none⟩
        (fun _ => .error "") (fun _ => .error "")) = .ok 200 ∧
    Except.map ResponseModel.status
      (fetch ⟨"OPTIONS", "/__version", none, none, none⟩ ⟨none, none, none⟩
        (fun _ => .error "") (fun _ => .error "")) ≠ .ok 204 := by
  have h : Except.map ResponseModel.status
      (fetch ⟨"OPTIONS", "/__version", none, none, none⟩ ⟨none, none, none⟩
        (fun _ => .error "") (fun _ => .error "")) = .ok 200 := rfl
  refine ⟨h, ?_⟩
  rw [h]
  intro hc
  injection hc with h2
  exact absurd h2 (by decide)

/-- C3: when no secret is configured, every POST `/api/generate` request
proceeds past authentication — it is never answered 401, whatever its
Authorization header; when a nonempty secret `k` is configured, a request
with any Authorization value other than exactly `Bearer k` (including a
missing header) is answered 401 with body `Unauthorized`, and a request
carrying exactly `Bearer k` is never answered 401. -/
theorem auth_gating (request : RequestModel) (env : Env)
    (aiF : FluxInputs → Except String JSVal) (aiS : SdxlInputs → Except String (List Nat))
    (k : String) (hm : request.method = "POST") (hp : request.pathname = "/api/generate") :
    (env.API_KEY = none →
      ∀ r, fetch request env aiF aiS = .ok r → r.status ≠ 401) ∧
    (env.API_KEY = some k → k ≠ "" →
      (request.authorization ≠ some ("Bearer " ++ k) →
        fetch request env aiF aiS = .ok (respond request env (.text "Unauthorized") 401 []) ∧
        (respond request env (.text "Unauthorized") 401 []).status = 401 ∧
        (respond request env (.text "Unauthorized") 401 []).body = .text "Unauthorized") ∧
      (request.authorization = some ("Bearer " ++ k) →
        ∀ r, fetch request env aiF aiS = .ok r → r.status ≠ 401)) := by
  have hroute1 : request.pathname ≠ "/__version" := by rw [hp]; decide
  have hroute2 : ¬(request.method = "OPTIONS") := by rw [hm]; decide
  have hroute3 : ¬(request.pathname ≠ "/api/generate") := by rw [hp]; simp
  have hroute4 : ¬(request.method ≠ "POST") := by rw [hm]; simp
  constructor
  · intro hkey r hr
    obtain ⟨b, st, extra, rfl, himp⟩ := fetch_ok_shape hr
    intro hst
    have h2 := himp hst
    rw [hkey, authFailed_none] at h2
    cases h2
  · intro hkey hk
    constructor
    · intro hne
      have hauth : authFailed env.API_KEY request.authorization = true := by
        rw [hkey]
        cases hfa : authFailed (some k) request.authorization
        · exact absurd ((authFailed_some_iff k _ hk).mp hfa) hne
        · rfl
      refine ⟨?_, rfl, rfl⟩
      simp only [fetch]
      rw [if_neg hroute1, if_neg hroute2, if_neg hroute3, if_neg hroute4, if_pos hauth]
    · intro heq r hr
      have hauth : authFailed env.API_KEY request.authorization = false := by
        rw [hkey]
        exact (authFailed_some_iff k _ hk).mpr heq
      obtain ⟨b, st, extra, rfl, himp⟩ := fetch_ok_shape hr
      intro hst
      have h2 := himp hst
      rw [hauth] at h2
      cases h2

/-- C3 witness: with no secret configured, a POST request carrying an
arbitrary Authorization header proceeds (its 400 response is not a 401);
with the secret `s3cret`, a wrong bearer token is answered 401
Unauthorized. -/
theorem auth_gating_witness :
    (respond ⟨"POST", "/api/generate", none, some "Bearer whatever", none⟩
        ⟨none, none, none⟩ (.text "Invalid JSON") 400 []).status ≠ 401 ∧
    fetch ⟨"POST", "/api/generate", none, some "Bearer wrong", none⟩
        ⟨some "s3cret", none, none⟩ (fun _ => .error "") (fun _ => .error "") =
      .ok (respond ⟨"POST", "/api/generate", none, some "Bearer wrong", none⟩
        ⟨some "s3cret", none, none⟩ (.text "Unauthorized") 401 []) := by
  constructor
  · exact (auth_gating ⟨"POST", "/api/generate", none, some "Bearer whatever", none⟩
      ⟨none, none, none⟩ (fun _ => .error "") (fun _ => .error "") "s3cret" rfl rfl).1 rfl
      (respond ⟨"POST", "/api/generate", none, some "Bearer whatever", none⟩
        ⟨none, none, none⟩ (.text "Invalid JSON") 400 []) rfl
  · exact (((auth_gating ⟨"POST", "/api/generate", none, some "Bearer wrong", none⟩
      ⟨some "s3cret", none, none⟩ (fun _ => .error "") (fun _ => .error "")
      "s3cret" rfl rfl).2 rfl (by decide)).1 (by decide)).1

/-- C5: every error response (400, 401, 404, 405 or 502) carries the CORS
header set: `Vary: Origin` is present, and whenever the request's Origin
is in the allowlist the `Access-Control-Allow-Origin` header echoes it. -/
theorem error_responses_carry_cors (request : RequestModel) (env : Env)
    (aiF : FluxInputs → Except String JSVal) (aiS : SdxlInputs → Except String (List Nat))
    (r : ResponseModel) (h : fetch request env aiF aiS = .ok r)
    (hst : r.status = 400 ∨ r.status = 401 ∨ r.status = 404 ∨ r.status = 405 ∨
      r.status = 502) :
    lookupH r.headers "Vary" = some (.hs "Origin") ∧
    (∀ o, request.origin = some o → o ∈ parseAllowedOrigins env →
      lookupH r.headers "Access-Control-Allow-Origin" = some (.hs o)) := by
  obtain ⟨b, st, extra, rfl, -⟩ := fetch_ok_shape h
  exact ⟨lookupH_respond_vary _ _ _ _ _,
    fun o ho hmem => respond_acao_echo _ _ _ _ _ o ho hmem⟩

/-- C5 witness: the 404 response for an unknown path from an allowed origin
carries `Vary: Origin` and echoes the origin. -/
theorem error_responses_carry_cors_witness :
    lookupH (respond ⟨"GET", "/nope", some "http://localhost:8080", none, none⟩
        ⟨none, none, none⟩ (.text "Not found") 404 []).headers "Vary" =
      some (.hs "Origin") ∧
    lookupH (respond ⟨"GET", "/nope", some "http://localhost:8080", none, none⟩
        ⟨none, none, none⟩ (.text "Not found") 404 []).headers
        "Access-Control-Allow-Origin" = some (.hs "http://localhost:8080") := by
  have h := error_responses_carry_cors
    ⟨"GET", "/nope", some "http://localhost:8080", none, none⟩ ⟨none, none, none⟩
    (fun _ => .error "") (fun _ => .error "")
    (respond ⟨"GET", "/nope", some "http://localhost:8080", none, none⟩
      ⟨none, none, none⟩ (.text "Not found") 404 []) rfl
    (Or.inr (Or.inr (Or.inl rfl)))
  exact ⟨h.1, h.2 "http://localhost:8080" rfl (by decide)⟩

/-- C10: configuring the secret as the empty string disables authentication
exactly as leaving it unset does — the handler behaves identically to a
configuration with no secret, and never returns a 401. -/
theorem empty_secret_skips_auth (request : RequestModel) (ao aos : Option String)
    (aiF : FluxInputs → Except String JSVal) (aiS : SdxlInputs → Except String (List Nat)) :
    fetch request ⟨some "", ao, aos⟩ aiF aiS = fetch request ⟨none, ao, aos⟩ aiF aiS ∧
    (∀ r, fetch request ⟨some "", ao, aos⟩ aiF aiS = .ok r → r.status ≠ 401) := by
  constructor
  · rfl
  · intro r hr
    obtain ⟨b, st, extra, rfl, himp⟩ := fetch_ok_shape hr
    intro hst
    have h2 := himp hst
    rw [show (⟨some "", ao, aos⟩ : Env).API_KEY = some "" from rfl, authFailed_empty] at h2
    cases h2

/-- C10 witness: with the empty-string secret and no Authorization header,
a request is handled identically to the no-secret configuration, and its
400 response is not a 401. -/
theorem empty_secret_skips_auth_witness :
    fetch ⟨"POST", "/api/generate", none, none, none⟩ ⟨some "", none, none⟩
        (fun _ => .error "") (fun _ => .error "") =
      fetch ⟨"POST", "/api/generate", none, none, none⟩ ⟨none, none, none⟩
        (fun _ => .error "") (fun _ => .error "") ∧
    (respond ⟨"POST", "/api/generate", none, none, none⟩ ⟨some "", none, none⟩
        (.text "Invalid JSON") 400 []).status ≠ 401 := by
  have h := empty_secret_skips_auth ⟨"POST", "/api/generate", none, none, none⟩
    none none (fun _ => .error "") (fun _ => .error "")
  exact ⟨h.1, h.2 _ rfl⟩

/-- C7 (amended): `clampNum` is idempotent for every input and bounds, and
leaves any value inside `[lo, hi]` unchanged; `clampInt` is idempotent on
numeric inputs when the bounds are integers, and equals `Math.round` on
numbers inside integer bounds.  (With non-integer bounds both clampInt
parts fail, see the counterexample.) -/
theorem clamp_properties (m : Option ℚ) (q lo hi fb : ℚ) (li hi2 : ℤ) :
    clampNum (some (clampNum m lo hi fb)) lo hi fb = clampNum m lo hi fb ∧
    clampInt (some (clampInt (some q) (li : ℚ) (hi2 : ℚ) fb)) (li : ℚ) (hi2 : ℚ) fb =
      clampInt (some q) (li : ℚ) (hi2 : ℚ) fb ∧
    (lo ≤ q → q ≤ hi → clampNum (some q) lo hi fb = q) ∧
    ((li : ℚ) ≤ q → q ≤ (hi2 : ℚ) → clampInt (some q) (li : ℚ) (hi2 : ℚ) fb = jsRound q) := by
  have key : ∀ x : ℚ,
      clampInt (some x) (li : ℚ) (hi2 : ℚ) fb = ((min hi2 (max li ⌊x + 1 / 2⌋) : ℤ) : ℚ) := by
    intro x
    simp only [clampInt, jsRound]
    push_cast
    rfl
  have key2 : ∀ w : ℤ,
      clampInt (some ((w : ℤ) : ℚ)) (li : ℚ) (hi2 : ℚ) fb = ((min hi2 (max li w) : ℤ) : ℚ) := by
    intro w
    simp only [clampInt, jsRound_intCast]
    push_cast
    rfl
  refine ⟨?_, ?_, ?_, ?_⟩
  · simp only [clampNum, Option.getD_some]
    exact minmax_fix lo hi (m.getD fb)
  · rw [key q, key2, minmax_fix]
  · intro h1 h2
    simp only [clampNum, Option.getD_some]
    rw [max_eq_right h1, min_eq_right h2]
  · intro h1 h2
    simp only [clampInt]
    have hlo : (li : ℚ) ≤ jsRound q := by
      calc (li : ℚ) = jsRound ((li : ℤ) : ℚ) := (jsRound_intCast li).symm
        _ ≤ jsRound q := jsRound_mono h1
    have hhi : jsRound q ≤ (hi2 : ℚ) := by
      calc jsRound q ≤ jsRound ((hi2 : ℤ) : ℚ) := jsRound_mono h2
        _ = (hi2 : ℚ) := jsRound_intCast hi2
    rw [max_eq_right hlo, min_eq_right hhi]

/-- C7 witness: the within-range identities at concrete values. -/
theorem clamp_properties_witness :
    clampNum (some (2 : ℚ)) 1 5 3 = 2 ∧
    clampInt (some (2 : ℚ)) ((1 : ℤ) : ℚ) ((5 : ℤ) : ℚ) 3 = jsRound 2 := by
  refine ⟨(clamp_properties (some 2) 2 1 5 3 1 5).2.2.1 (by norm_num) (by norm_num), ?_⟩
  exact (clamp_properties (some 2) 2 1 5 3 1 5).2.2.2 (by norm_num) (by norm_num)

/-- C7 counterexample: with the non-integer lower bound 1/2, `clampInt` is
not idempotent (clampInt(1/4) = 1/2 but clampInt(1/2) = 1), refuting the
claim for every bounds. -/
theorem clamp_idempotence_counterexample :
    clampInt (some (clampInt (some (1 / 4)) (1 / 2) 2 0)) (1 / 2) 2 0 ≠
      clampInt (some (1 / 4)) (1 / 2) 2 0 := by
  norm_num [clampInt, jsRound]

/-- C8 (amended): both backend parameter builders include a seed exactly
when the caller supplied a number (integer or not), and the included value
is the floor of that number; non-numbers contribute no seed field. -/
theorem seed_included_iff_number (q : ℚ) (v : JSVal) :
    seedParam (.num q) = some ((⌊q⌋ : ℤ) : ℚ) ∧
    (toFiniteNum v = none → seedParam v = none) := by
  refine ⟨rfl, ?_⟩
  cases v <;> simp [toFiniteNum, seedParam]

/-- C8 witness: a non-numeric seed value contributes no seed parameter. -/
theorem seed_included_iff_number_witness :
    seedParam (.str "xyz") = none :=
  (seed_included_iff_number 0 (.str "xyz")).2 rfl

/-- C8 counterexample: the supplied seed 7/2 is a number but not an
integer, yet a seed parameter (its floor, 3) is included, refuting the
claim that a seed is included only when an integer was supplied. -/
theorem seed_nonint_counterexample :
    seedParam (.num (7 / 2)) = some 3 ∧ (7 / 2 : ℚ).den = 2 := by
  constructor
  · norm_num [seedParam]
  · norm_num

/-- C6 (amended): the handler returns an HTTP response (no exception
escapes) for every request whose body, when JSON parsing succeeded, is not
null and whose `prompt` field is absent, falsy, or a string.  (A null body
or a truthy non-string `prompt` makes the handler throw an uncaught
TypeError, see the counterexample.) -/
theorem handler_totality (request : RequestModel) (env : Env)
    (aiF : FluxInputs → Except String JSVal) (aiS : SdxlInputs → Except String (List Nat))
    (h : bodyHandled request.jsonBody = true) :
    (fetch request env aiF aiS).isOk = true := by
  cases hj : request.jsonBody with
  | none =>
    simp only [fetch, hj]
    repeat' split
    all_goals rfl
  | some body =>
    rw [hj] at h
    simp only [bodyHandled] at h
    cases hgp : getProp body "prompt" with
    | error e =>
      rw [hgp] at h
      cases h
    | ok v =>
      rw [hgp] at h
      simp only [fetch, hj, hgp]
      repeat' split
      all_goals try rfl
      all_goals simp_all [truthy]

/-- C6 witness: a well-formed generation request is answered. -/
theorem handler_totality_witness :
    (fetch ⟨"POST", "/api/generate", none, none,
        some (.obj [("prompt", .str "a fox in a forest")])⟩ ⟨none, none, none⟩
      (fun _ => .ok .jsUndefined) (fun _ => .ok [])).isOk = true :=
  handler_totality _ _ _ _ (by decide)

/-- C6 counterexample: a body whose `prompt` field is the number 5 (truthy
but not a string) makes `body.prompt.trim()` throw, and the TypeError
escapes the handler — no response is produced, refuting the claim for
every body. -/
theorem handler_uncaught_counterexample :
    fetch ⟨"POST", "/api/generate", none, none, some (.obj [("prompt", .num 5)])⟩
      ⟨none, none, none⟩ (fun _ => .error "") (fun _ => .error "") = .error () := by
  rfl

end Worker
